import Mathlib

/-!
Verification development for the microfiber Lambda telemetry extension
(src/main.rs). The embedding models, from the source:

* `parse_function_log` (main.rs lines 191-220), including the behaviour of
  serde_json's from_str on the substring starting at the first brace:
  whole-string parsing (trailing non-whitespace is an error), JSON objects
  deserialized into a key-sorted map with last-write-wins on duplicate keys
  (serde_json's default BTreeMap-backed Map), string values moved verbatim,
  other values rendered with serde_json's compact Display form.
* the `handler` dispatch over `LambdaTelemetryRecord` variants
  (main.rs lines 79-189), as a pure classification function plus a trace of
  span operations performed by the surrounding in_span call.
* the startup sequence of `main` (main.rs lines 34-55), as a trace of steps
  parameterized by the outcome of tracer-provider initialization.

Modelling notes, stated once here: JSON numeric literals are kept as their
source lexeme; for integer literals this coincides with serde_json's
canonical Display output. Rust field values that the handler renders with
debug formatting are modelled as the already-rendered strings, since the
code only ever uses them as formatted text.
-/

namespace Microfiber

/-- The opening curly brace character, written via its code point. -/
def lbrace : Char := Char.ofNat 123

/-- The closing curly brace character, written via its code point. -/
def rbrace : Char := Char.ofNat 125

/-- Ordered list of string key/value pairs: the attribute set attached to a
span event (the Rust code uses a Vec of KeyValue with string values). -/
abbrev AttributeSet := List (String × String)

/-- JSON values as produced by serde_json deserialization into Value.
Objects carry their entries in the key-sorted, duplicate-free form that
serde_json's default (BTreeMap-backed) Map maintains. Numbers keep their
source lexeme. -/
inductive Json where
  | null
  | bool (b : Bool)
  | num (lexeme : String)
  | str (s : String)
  | arr (items : List Json)
  | obj (entries : List (String × Json))

/-- JSON whitespace accepted between tokens (space, tab, newline, carriage
return), as in serde_json. -/
def isWs (c : Char) : Bool :=
  c = ' ' || c = Char.ofNat 9 || c = Char.ofNat 10 || c = Char.ofNat 13

/-- Drop leading JSON whitespace. -/
def skipWs : List Char → List Char
  | [] => []
  | c :: cs => if isWs c then skipWs cs else c :: cs

/-- Parse errors of the embedded JSON reader, mirroring the error
conditions serde_json reports. -/
inductive ParseErr where
  | eofWhileParsing
  | expectedValue
  | trailingCharacters
  | invalidEscape
  | invalidNumber
  | controlCharacterInString
  | loneSurrogate
  | keyMustBeString
  | expectedColon
  | expectedCommaOrEnd
  | recursionLimitExceeded
  deriving DecidableEq

/-- Value of a hexadecimal digit, if the character is one. -/
def hexVal (c : Char) : Option Nat :=
  if c.isDigit then some (c.toNat - 48)
  else if 'a' ≤ c ∧ c ≤ 'f' then some (c.toNat - 87)
  else if 'A' ≤ c ∧ c ≤ 'F' then some (c.toNat - 55)
  else none

/-- Single-character string escapes accepted by serde_json. -/
def simpleEscape (c : Char) : Option Char :=
  if c = '"' then some '"'
  else if c = '\\' then some '\\'
  else if c = '/' then some '/'
  else if c = 'b' then some (Char.ofNat 8)
  else if c = 'f' then some (Char.ofNat 12)
  else if c = 'n' then some (Char.ofNat 10)
  else if c = 'r' then some (Char.ofNat 13)
  else if c = 't' then some (Char.ofNat 9)
  else none

/-- Read the body of a JSON string after the opening quote, decoding
escapes (including surrogate pairs) as serde_json does; returns the decoded
string and the remaining input after the closing quote. -/
def parseStringBodyF : Nat → List Char → List Char → Except ParseErr (String × List Char)
  | 0, _, _ => .error .recursionLimitExceeded
  | fuel+1, acc, input =>
    match input with
    | [] => .error .eofWhileParsing
    | c :: rest =>
      if c = '"' then .ok (String.mk acc.reverse, rest)
      else if c = '\\' then
        match rest with
        | [] => .error .eofWhileParsing
        | e :: rest2 =>
          if e = 'u' then
            match rest2 with
            | h1 :: h2 :: h3 :: h4 :: rest3 =>
              match hexVal h1, hexVal h2, hexVal h3, hexVal h4 with
              | some a, some b, some cq, some d =>
                let n := ((a * 16 + b) * 16 + cq) * 16 + d
                if 0xD800 ≤ n ∧ n ≤ 0xDBFF then
                  match rest3 with
                  | b1 :: u2 :: g1 :: g2 :: g3 :: g4 :: rest4 =>
                    if b1 = '\\' ∧ u2 = 'u' then
                      match hexVal g1, hexVal g2, hexVal g3, hexVal g4 with
                      | some a2, some b2, some c2, some d2 =>
                        let m := ((a2 * 16 + b2) * 16 + c2) * 16 + d2
                        if 0xDC00 ≤ m ∧ m ≤ 0xDFFF then
                          let cp := 0x10000 + (n - 0xD800) * 0x400 + (m - 0xDC00)
                          parseStringBodyF fuel (Char.ofNat cp :: acc) rest4
                        else .error .loneSurrogate
                      | _, _, _, _ => .error .invalidEscape
                    else .error .loneSurrogate
                  | _ => .error .loneSurrogate
                else if 0xDC00 ≤ n ∧ n ≤ 0xDFFF then .error .loneSurrogate
                else parseStringBodyF fuel (Char.ofNat n :: acc) rest3
              | _, _, _, _ => .error .invalidEscape
            | _ => .error .eofWhileParsing
          else
            match simpleEscape e with
            | some ch => parseStringBodyF fuel (ch :: acc) rest2
            | none => .error .invalidEscape
      else if c.toNat < 32 then .error .controlCharacterInString
      else parseStringBodyF fuel (c :: acc) rest

/-- Integer part of a JSON number: a single 0, or a nonzero digit followed
by digits (leading zeros are rejected, as in serde_json). -/
def parseIntPart : List Char → Except ParseErr (List Char × List Char)
  | [] => .error .eofWhileParsing
  | c :: cs =>
    if c = '0' then
      match cs with
      | d :: _ => if d.isDigit then .error .invalidNumber else .ok ([c], cs)
      | [] => .ok ([c], [])
    else if c.isDigit then
      .ok (c :: cs.takeWhile Char.isDigit, cs.dropWhile Char.isDigit)
    else .error .invalidNumber

/-- Optional fractional part of a JSON number: a dot followed by at least
one digit. -/
def parseFracPart : List Char → Except ParseErr (List Char × List Char)
  | [] => .ok ([], [])
  | c :: cs =>
    if c = '.' then
      let ds := cs.takeWhile Char.isDigit
      if ds.isEmpty then .error .invalidNumber
      else .ok (c :: ds, cs.dropWhile Char.isDigit)
    else .ok ([], c :: cs)

/-- Optional exponent part of a JSON number: e or E, an optional sign, and
at least one digit. -/
def parseExpPart : List Char → Except ParseErr (List Char × List Char)
  | [] => .ok ([], [])
  | c :: cs =>
    if c = 'e' ∨ c = 'E' then
      match cs with
      | [] => .error .eofWhileParsing
      | s :: cs2 =>
        if s = '+' ∨ s = '-' then
          let ds := cs2.takeWhile Char.isDigit
          if ds.isEmpty then .error .invalidNumber
          else .ok (c :: s :: ds, cs2.dropWhile Char.isDigit)
        else
          let ds := cs.takeWhile Char.isDigit
          if ds.isEmpty then .error .invalidNumber
          else .ok (c :: ds, cs.dropWhile Char.isDigit)
    else .ok ([], c :: cs)

/-- Read a JSON numeric literal (the input starts with a minus sign or a
digit); returns the literal kept as its lexeme and the remaining input. -/
def parseNumber (input : List Char) : Except ParseErr (Json × List Char) :=
  let sign : List Char × List Char :=
    match input with
    | c :: cs => if c = '-' then ([c], cs) else ([], input)
    | [] => ([], [])
  match parseIntPart sign.2 with
  | .error e => .error e
  | .ok (ip, r1) =>
    match parseFracPart r1 with
    | .error e => .error e
    | .ok (fp, r2) =>
      match parseExpPart r2 with
      | .error e => .error e
      | .ok (ep, r3) => .ok (.num (String.mk (sign.1 ++ ip ++ fp ++ ep)), r3)

/-- Strict lexicographic order on character lists; on UTF-8 data this
agrees with the byte order a Rust BTreeMap of Strings sorts by. -/
def charsLt : List Char → List Char → Bool
  | _, [] => false
  | [], _ :: _ => true
  | a :: as, b :: bs =>
    if a < b then true
    else if b < a then false
    else charsLt as bs

/-- Insert a key/value pair into a key-sorted association list, replacing
any existing binding of the same key: the behaviour of insert on
serde_json's default BTreeMap-backed object Map, so a key repeated in the
source object text resolves to its last occurrence. -/
def mapInsert (k : String) (v : Json) : List (String × Json) → List (String × Json)
  | [] => [(k, v)]
  | (k2, v2) :: rest =>
    if charsLt k.data k2.data then (k, v) :: (k2, v2) :: rest
    else if k = k2 then (k, v) :: rest
    else (k2, v2) :: mapInsert k v rest

/-- First binding of a key in an association list. -/
def lookupKey (k : String) : List (String × Json) → Option Json
  | [] => none
  | (k2, v) :: rest => if k = k2 then some v else lookupKey k rest

/-- Work items of the recursive-descent JSON reader: a value, the element
loop of an array, or the member loop of an object. -/
inductive PTask where
  | value
  | arrItems (acc : List Json)
  | objItems (acc : List (String × Json))

/-- Fuel-indexed recursive-descent JSON reader following serde_json's
grammar; returns the parsed value and the unconsumed remainder of the
input. -/
def parseF : Nat → PTask → List Char → Except ParseErr (Json × List Char)
  | 0, _, _ => .error .recursionLimitExceeded
  | fuel+1, .value, input =>
    match skipWs input with
    | [] => .error .eofWhileParsing
    | c :: cs =>
      if c = 'n' then
        match cs with
        | u :: l1 :: l2 :: rest =>
          if u = 'u' ∧ l1 = 'l' ∧ l2 = 'l' then .ok (.null, rest) else .error .expectedValue
        | _ => .error .expectedValue
      else if c = 't' then
        match cs with
        | r :: u :: e :: rest =>
          if r = 'r' ∧ u = 'u' ∧ e = 'e' then .ok (.bool true, rest) else .error .expectedValue
        | _ => .error .expectedValue
      else if c = 'f' then
        match cs with
        | a :: l :: s :: e :: rest =>
          if a = 'a' ∧ l = 'l' ∧ s = 's' ∧ e = 'e' then .ok (.bool false, rest)
          else .error .expectedValue
        | _ => .error .expectedValue
      else if c = '"' then
        match parseStringBodyF (cs.length + 1) [] cs with
        | .ok (s, rest) => .ok (.str s, rest)
        | .error e => .error e
      else if c = '[' then
        match skipWs cs with
        | [] => .error .eofWhileParsing
        | d :: ds => if d = ']' then .ok (.arr [], ds) else parseF fuel (.arrItems []) (d :: ds)
      else if c = lbrace then
        match skipWs cs with
        | [] => .error .eofWhileParsing
        | d :: ds => if d = rbrace then .ok (.obj [], ds) else parseF fuel (.objItems []) (d :: ds)
      else if c = '-' ∨ c.isDigit then parseNumber (c :: cs)
      else .error .expectedValue
  | fuel+1, .arrItems acc, input =>
    match parseF fuel .value input with
    | .error e => .error e
    | .ok (v, rest) =>
      match skipWs rest with
      | [] => .error .eofWhileParsing
      | c :: cs =>
        if c = ',' then parseF fuel (.arrItems (acc ++ [v])) cs
        else if c = ']' then .ok (.arr (acc ++ [v]), cs)
        else .error .expectedCommaOrEnd
  | fuel+1, .objItems acc, input =>
    match skipWs input with
    | [] => .error .eofWhileParsing
    | c :: cs =>
      if c = '"' then
        match parseStringBodyF (cs.length + 1) [] cs with
        | .error e => .error e
        | .ok (k, rest) =>
          match skipWs rest with
          | [] => .error .eofWhileParsing
          | d :: ds =>
            if d = ':' then
              match parseF fuel .value ds with
              | .error e => .error e
              | .ok (v, rest2) =>
                match skipWs rest2 with
                | [] => .error .eofWhileParsing
                | e2 :: es =>
                  if e2 = ',' then parseF fuel (.objItems (mapInsert k v acc)) es
                  else if e2 = rbrace then .ok (.obj (mapInsert k v acc), es)
                  else .error .expectedCommaOrEnd
            else .error .expectedColon
      else .error .keyMustBeString

/-- Parse a whole character sequence as one JSON value, as
serde_json::from_str does: leading and trailing whitespace is allowed, any
other trailing characters are an error. -/
def parseJsonChars (input : List Char) : Except ParseErr Json :=
  match parseF (4 * (input.length + 1)) .value input with
  | .error e => .error e
  | .ok (j, rest) => if (skipWs rest).isEmpty then .ok j else .error .trailingCharacters

/-- Lowercase hexadecimal digit for a value below 16. -/
def hexDigit (n : Nat) : Char := if n < 10 then Char.ofNat (48 + n) else Char.ofNat (87 + n)

/-- Escape the characters of a string for JSON output the way serde_json's
compact serializer does: quote, backslash, the named control escapes, and
a four-digit lowercase unicode escape for other control characters. -/
def escapeStringChars : List Char → List Char
  | [] => []
  | c :: cs =>
    if c = '"' then '\\' :: '"' :: escapeStringChars cs
    else if c = '\\' then '\\' :: '\\' :: escapeStringChars cs
    else if c.toNat = 8 then '\\' :: 'b' :: escapeStringChars cs
    else if c.toNat = 9 then '\\' :: 't' :: escapeStringChars cs
    else if c.toNat = 10 then '\\' :: 'n' :: escapeStringChars cs
    else if c.toNat = 12 then '\\' :: 'f' :: escapeStringChars cs
    else if c.toNat = 13 then '\\' :: 'r' :: escapeStringChars cs
    else if c.toNat < 32 then
      '\\' :: 'u' :: '0' :: '0' :: hexDigit (c.toNat / 16) :: hexDigit (c.toNat % 16)
        :: escapeStringChars cs
    else c :: escapeStringChars cs

/-- Quote and escape a string for JSON output. -/
def quoteString (s : String) : String :=
  "\"" ++ String.mk (escapeStringChars s.toList) ++ "\""

mutual

/-- Compact JSON serialization, following serde_json's Display for Value
(the to_string the code applies to non-string field values). -/
def jsonToString : Json → String
  | .null => "null"
  | .bool true => "true"
  | .bool false => "false"
  | .num lexeme => lexeme
  | .str s => quoteString s
  | .arr items => "[" ++ jsonArrToString items ++ "]"
  | .obj entries => "\x7b" ++ jsonObjToString entries ++ "\x7d"

/-- Comma-separated serialization of array elements. -/
def jsonArrToString : List Json → String
  | [] => ""
  | [j] => jsonToString j
  | j :: js => jsonToString j ++ "," ++ jsonArrToString js

/-- Comma-separated serialization of object members. -/
def jsonObjToString : List (String × Json) → String
  | [] => ""
  | [(k, v)] => quoteString k ++ ":" ++ jsonToString v
  | (k, v) :: rest => quoteString k ++ ":" ++ jsonToString v ++ "," ++ jsonObjToString rest

end

/-- Suffix of the input starting at its first opening brace, if any: the
slice record[json_start..] the Rust code takes after record.find. -/
def braceSuffix : List Char → Option (List Char)
  | [] => none
  | c :: cs => if c = lbrace then some (c :: cs) else braceSuffix cs

/-- Deterministic rendering of a parse error, standing for the debug
formatting of the serde_json error value in the Rust code. -/
def renderErr : ParseErr → String
  | .eofWhileParsing => "Error(\"EOF while parsing a value\")"
  | .expectedValue => "Error(\"expected value\")"
  | .trailingCharacters => "Error(\"trailing characters\")"
  | .invalidEscape => "Error(\"invalid escape\")"
  | .invalidNumber => "Error(\"invalid number\")"
  | .controlCharacterInString => "Error(\"control character in string\")"
  | .loneSurrogate => "Error(\"lone surrogate in hex escape\")"
  | .keyMustBeString => "Error(\"key must be a string\")"
  | .expectedColon => "Error(\"expected colon\")"
  | .expectedCommaOrEnd => "Error(\"expected comma or end\")"
  | .recursionLimitExceeded => "Error(\"recursion limit exceeded\")"

/-- Attribute value for one JSON object field: a string value is moved
verbatim, any other value is rendered with to_string (main.rs 199-202). -/
def attrValue : Json → String
  | .str s => s
  | .null => jsonToString Json.null
  | .bool b => jsonToString (Json.bool b)
  | .num lexeme => jsonToString (Json.num lexeme)
  | .arr items => jsonToString (Json.arr items)
  | .obj entries => jsonToString (Json.obj entries)

/-- Embedding of parse_function_log (main.rs 191-220): find the first
opening brace; with none, return the single raw_log attribute; otherwise
parse the rest of the line as JSON, turning an object's fields into
attributes (an empty attribute list for a non-object value) and falling
back to error plus raw_log attributes when parsing fails. -/
def parse_function_log (record : String) : AttributeSet :=
  match braceSuffix record.toList with
  | some jsonChars =>
    match parseJsonChars jsonChars with
    | .ok j =>
      match j with
      | .obj entries => entries.map (fun kv => (kv.1, attrValue kv.2))
      | _ => []
    | .error e => [("error", renderErr e), ("raw_log", record)]
  | none => [("raw_log", record)]

/-- Telemetry record variants matched by the handler (main.rs 86-184).
Fields appear as the strings their debug formatting produces, which is the
only way the handler uses them; Unknown stands for every variant the
wildcard arm catches and carries the debug dump of the whole event. -/
inductive TelemetryRecord where
  | Function (log : String)
  | PlatformInitStart (initType phase runtimeVersion runtimeVersionArn : String)
  | PlatformInitRuntimeDone (initType phase : String)
  | PlatformInitReport (initType phase durationMs : String)
  | PlatformStart (requestId : String)
  | PlatformRuntimeDone (requestId metrics : String)
  | PlatformReport (requestId durationMs : String)
  | Unknown (eventDump : String)
  deriving DecidableEq

/-- Event classification of one telemetry record: the event name and
attribute list the handler's match arms pass to span.add_event
(main.rs 86-184). -/
def classify : TelemetryRecord → String × AttributeSet
  | .Function log => ("function_log", parse_function_log log)
  | .PlatformInitStart it ph rv rva =>
    ("init_start",
      [("init_type", it), ("phase", ph), ("runtime_version", rv), ("runtime_version_arn", rva)])
  | .PlatformInitRuntimeDone it ph =>
    ("init_runtime_done", [("init_type", it), ("phase", ph)])
  | .PlatformInitReport it ph dur =>
    ("init_report", [("init_type", it), ("phase", ph), ("duration", dur)])
  | .PlatformStart rid => ("platform_start", [("request_id", rid)])
  | .PlatformRuntimeDone rid m =>
    ("runtime_done", [("request_id", rid), ("duration", m)])
  | .PlatformReport rid dur =>
    ("platform_report", [("request_id", rid), ("duration", dur)])
  | .Unknown dump => ("unhandled_event", [("event", dump)])

/-- Observable span operations the handler performs through the tracer. -/
inductive SpanAction where
  | openSpan (name : String)
  | addEvent (name : String) (attrs : AttributeSet)
  | closeSpan
  deriving DecidableEq

/-- The span operation one record causes inside the loop. -/
def emitOf (r : TelemetryRecord) : SpanAction :=
  SpanAction.addEvent (classify r).1 (classify r).2

/-- Trace of span operations of one handler invocation (main.rs 83-186):
in_span opens the handler span, the for loop appends one event per record
in order, and the span closes when the closure returns. -/
def handlerTrace (events : List TelemetryRecord) : List SpanAction :=
  SpanAction.openSpan "handler"
    :: (events.foldl (fun acc r => acc ++ [emitOf r]) [] ++ [SpanAction.closeSpan])

/-- Embedding of the handler (main.rs 79-189): the span-operation trace it
produces and its return value, which is Ok(()) on every path. -/
def handler (events : List TelemetryRecord) : List SpanAction × Except String Unit :=
  (handlerTrace events, Except.ok ())

/-- The tracer provider built by init_opentelemetry, reduced to the
configuration it is built from. -/
structure TracerProvider where
  endpoint : String
  serviceName : String
  deriving DecidableEq

/-- Steps of the startup and shutdown sequence of main. -/
inductive MainStep where
  | initTracer
  | installGlobalProvider
  | runExtension
  | abortProcess
  | shutdownProvider
  deriving DecidableEq

/-- Embedding of main (main.rs 34-55), parameterized by the outcome of
init_opentelemetry: expect panics (aborting the process) on an Err before
anything else runs; on Ok the provider is installed globally with
set_tracer_provider, then the extension loop runs, then the provider is
shut down. -/
def mainTrace (initResult : Except String TracerProvider) : List MainStep :=
  match initResult with
  | .error _ => [MainStep.initTracer, MainStep.abortProcess]
  | .ok _ =>
    [MainStep.initTracer, MainStep.installGlobalProvider,
     MainStep.runExtension, MainStep.shutdownProvider]

/-! Helper lemmas shared by the claim theorems. -/

/-- A brace-free character list has no brace suffix. -/
theorem braceSuffix_eq_none (cs : List Char) (h : lbrace ∉ cs) : braceSuffix cs = none := by
  induction cs with
  | nil => rfl
  | cons c cs ih =>
    rw [List.mem_cons] at h
    push_neg at h
    have hc : ¬(c = lbrace) := fun hc => h.1 hc.symm
    simp [braceSuffix, hc, ih h.2]

/-- The brace suffix of a brace-free chunk followed by a brace is the part
from that brace on. -/
theorem braceSuffix_append (xs ys : List Char) (h : lbrace ∉ xs) :
    braceSuffix (xs ++ lbrace :: ys) = some (lbrace :: ys) := by
  induction xs with
  | nil => simp [braceSuffix]
  | cons c cs ih =>
    rw [List.mem_cons] at h
    push_neg at h
    have hc : ¬(c = lbrace) := fun hc => h.1 hc.symm
    simp [braceSuffix, hc, ih h.2]

/-- Characters of a concatenation are the concatenated characters. -/
theorem toList_append (a b : String) : (a ++ b).toList = a.toList ++ b.toList :=
  String.data_append a b

/-- Folding event emission over a batch appends the per-record events in
batch order. -/
theorem foldl_emit (l : List TelemetryRecord) (init : List SpanAction) :
    l.foldl (fun acc r => acc ++ [emitOf r]) init = init ++ l.map emitOf := by
  induction l generalizing init with
  | nil => simp
  | cons hd tl ih => simp [List.foldl_cons, ih]

/-- Closed form of the handler trace: one span open, the per-record events
in order, one span close. -/
theorem handlerTrace_eq (events : List TelemetryRecord) :
    handlerTrace events
      = SpanAction.openSpan "handler" :: (events.map emitOf ++ [SpanAction.closeSpan]) := by
  unfold handlerTrace
  rw [foldl_emit, List.nil_append]

/-- Splitting a record string at its first brace, given a brace-free part
before a part that starts with a brace. -/
theorem parse_function_log_split (pre rest : String) (t : List Char)
    (hpre : lbrace ∉ pre.toList) (ht : rest.toList = lbrace :: t) :
    braceSuffix (pre ++ rest).toList = some rest.toList := by
  rw [toList_append, ht]
  exact braceSuffix_append pre.toList t hpre

/-! Claim theorems. -/

/-- C2: classification is a total function: every telemetry record,
including the catch-all Unknown case, yields exactly one name/attribute
pair, and the handler returns Ok on every batch, with no error path. -/
theorem classifier_total :
    (∀ r : TelemetryRecord, ∃! p : String × AttributeSet, classify r = p)
    ∧ (∀ events : List TelemetryRecord, (handler events).2 = Except.ok ()) :=
  ⟨fun r => ⟨classify r, rfl, fun _ h => h.symm⟩, fun _ => rfl⟩

/-- C3: a batch of N records yields one span whose trace opens the span,
adds exactly one event per record in batch order (N events), and closes
the span only after all of them. -/
theorem handler_span_events (events : List TelemetryRecord) :
    (handler events).1
      = SpanAction.openSpan "handler" :: (events.map emitOf ++ [SpanAction.closeSpan])
    ∧ (events.map emitOf).length = events.length :=
  ⟨handlerTrace_eq events, List.length_map events emitOf⟩

/-- C4: the dispatch table: each record variant is translated to exactly
the event name and attribute list of its match arm in the handler. -/
theorem classifier_dispatch_table :
    (∀ log, classify (TelemetryRecord.Function log)
      = ("function_log", parse_function_log log))
    ∧ (∀ it ph rv rva, classify (TelemetryRecord.PlatformInitStart it ph rv rva)
      = ("init_start",
          [("init_type", it), ("phase", ph), ("runtime_version", rv),
           ("runtime_version_arn", rva)]))
    ∧ (∀ it ph, classify (TelemetryRecord.PlatformInitRuntimeDone it ph)
      = ("init_runtime_done", [("init_type", it), ("phase", ph)]))
    ∧ (∀ it ph dur, classify (TelemetryRecord.PlatformInitReport it ph dur)
      = ("init_report", [("init_type", it), ("phase", ph), ("duration", dur)]))
    ∧ (∀ rid, classify (TelemetryRecord.PlatformStart rid)
      = ("platform_start", [("request_id", rid)]))
    ∧ (∀ rid m, classify (TelemetryRecord.PlatformRuntimeDone rid m)
      = ("runtime_done", [("request_id", rid), ("duration", m)]))
    ∧ (∀ rid dur, classify (TelemetryRecord.PlatformReport rid dur)
      = ("platform_report", [("request_id", rid), ("duration", dur)]))
    ∧ (∀ raw, classify (TelemetryRecord.Unknown raw)
      = ("unhandled_event", [("event", raw)])) :=
  ⟨fun _ => rfl, fun _ _ _ _ => rfl, fun _ _ => rfl, fun _ _ _ => rfl,
   fun _ => rfl, fun _ _ => rfl, fun _ _ => rfl, fun _ => rfl⟩

/-- C7: an unrecognized record produces the unhandled_event name with a
single diagnostic attribute, the batch still returns Ok, and the sibling
records before and after it translate exactly as they would alone. -/
theorem unknown_variant_isolated (xs ys : List TelemetryRecord) (raw : String) :
    classify (TelemetryRecord.Unknown raw) = ("unhandled_event", [("event", raw)])
    ∧ [("event", raw)].length = 1
    ∧ (handler (xs ++ TelemetryRecord.Unknown raw :: ys)).1
        = SpanAction.openSpan "handler"
            :: (xs.map emitOf
              ++ SpanAction.addEvent "unhandled_event" [("event", raw)]
              :: (ys.map emitOf ++ [SpanAction.closeSpan]))
    ∧ (handler (xs ++ TelemetryRecord.Unknown raw :: ys)).2 = Except.ok () := by
  refine ⟨rfl, rfl, ?_, rfl⟩
  show handlerTrace _ = _
  rw [handlerTrace_eq]
  simp [emitOf, classify]

/-- C9: startup order: when tracer initialization fails the process aborts
before the extension loop ever runs; when it succeeds the provider is
installed globally before the extension loop starts. -/
theorem startup_abort_or_install :
    (∀ e : String,
      mainTrace (Except.error e) = [MainStep.initTracer, MainStep.abortProcess]
      ∧ MainStep.runExtension ∉ mainTrace (Except.error e))
    ∧ (∀ p : TracerProvider,
      mainTrace (Except.ok p)
        = [MainStep.initTracer, MainStep.installGlobalProvider,
           MainStep.runExtension, MainStep.shutdownProvider]
      ∧ (mainTrace (Except.ok p)).indexOf MainStep.installGlobalProvider
          < (mainTrace (Except.ok p)).indexOf MainStep.runExtension) :=
  ⟨fun _ => ⟨rfl, by
      show MainStep.runExtension ∉ [MainStep.initTracer, MainStep.abortProcess]
      decide⟩,
   fun _ => ⟨rfl, by
      show List.indexOf MainStep.installGlobalProvider
            [MainStep.initTracer, MainStep.installGlobalProvider,
             MainStep.runExtension, MainStep.shutdownProvider]
          < List.indexOf MainStep.runExtension
            [MainStep.initTracer, MainStep.installGlobalProvider,
             MainStep.runExtension, MainStep.shutdownProvider]
      decide⟩⟩

/-- C6: a log line without an opening brace parses to exactly the single
raw_log attribute holding the full text. -/
theorem parse_no_brace (s : String) (h : lbrace ∉ s.toList) :
    parse_function_log s = [("raw_log", s)] := by
  unfold parse_function_log
  rw [braceSuffix_eq_none s.toList h]

/-- Closed instance of parse_no_brace on a concrete brace-free line. -/
theorem parse_no_brace_witness :
    lbrace ∉ "no json here".toList
    ∧ parse_function_log "no json here" = [("raw_log", "no json here")] :=
  ⟨by decide, parse_no_brace "no json here" (by decide)⟩

/-- A character list whose optional head is the brace is a cons headed by
the brace. -/
theorem head_eq_brace (rest : String) (hhead : rest.toList.head? = some lbrace) :
    ∃ t, rest.toList = lbrace :: t := by
  cases hrl : rest.toList with
  | nil => rw [hrl] at hhead; simp at hhead
  | cons c cs =>
    rw [hrl] at hhead
    simp at hhead
    exact ⟨cs, by rw [hhead]⟩

/-- C5: when the text from the first brace onward fails to parse as JSON,
the parser returns exactly the two-entry fallback: an error description
and the original line verbatim under raw_log. -/
theorem parse_error_fallback (pre rest : String) (e : ParseErr)
    (hpre : lbrace ∉ pre.toList) (hhead : rest.toList.head? = some lbrace)
    (hfail : parseJsonChars rest.toList = Except.error e) :
    parse_function_log (pre ++ rest)
      = [("error", renderErr e), ("raw_log", pre ++ rest)] := by
  obtain ⟨t, ht⟩ := head_eq_brace rest hhead
  simp only [parse_function_log, parse_function_log_split pre rest t hpre ht, hfail]

/-- Closed instance of parse_error_fallback on the malformed line used in
the specification. -/
theorem parse_error_fallback_witness :
    lbrace ∉ "oops ".toList
    ∧ parse_function_log ("oops " ++ "\x7bnot json")
        = [("error", renderErr ParseErr.keyMustBeString),
           ("raw_log", "oops " ++ "\x7bnot json")] :=
  ⟨by decide,
   parse_error_fallback "oops " "\x7bnot json" ParseErr.keyMustBeString (by decide) rfl rfl⟩

/-- C1, as stated, is false: text after the JSON object is not ignored;
serde_json's from_str rejects the trailing characters, so the
specification's own example line takes the error fallback instead of
yielding the object's fields. -/
theorem json_suffix_not_ignored :
    parse_function_log "prefix \x7b\"a\":\"1\",\"b\":\"2\"\x7d suffix"
      = [("error", renderErr ParseErr.trailingCharacters),
         ("raw_log", "prefix \x7b\"a\":\"1\",\"b\":\"2\"\x7d suffix")]
    ∧ ("a", "1") ∉ parse_function_log "prefix \x7b\"a\":\"1\",\"b\":\"2\"\x7d suffix"
    ∧ parse_function_log "prefix \x7b\"a\":\"1\",\"b\":\"2\"\x7d suffix"
        ≠ [("a", "1"), ("b", "2")] :=
  ⟨rfl, by decide, by decide⟩

/-- C1 amended: text before the first brace is ignored, and when the
substring from the first brace to the end of the line is itself a valid
JSON object the parser yields exactly one attribute per field. -/
theorem parse_object_ignores_leading_text (pre rest : String)
    (entries : List (String × Json))
    (hpre : lbrace ∉ pre.toList) (hhead : rest.toList.head? = some lbrace)
    (hok : parseJsonChars rest.toList = Except.ok (Json.obj entries)) :
    parse_function_log (pre ++ rest)
      = entries.map (fun kv => (kv.1, attrValue kv.2)) := by
  obtain ⟨t, ht⟩ := head_eq_brace rest hhead
  simp only [parse_function_log, parse_function_log_split pre rest t hpre ht, hok]

/-- Closed instance of parse_object_ignores_leading_text on the
specification's example object with the suffix removed. -/
theorem parse_object_ignores_leading_text_witness :
    lbrace ∉ "prefix ".toList
    ∧ parse_function_log ("prefix " ++ "\x7b\"a\":\"1\",\"b\":\"2\"\x7d")
        = [("a", "1"), ("b", "2")] :=
  ⟨by decide,
   parse_object_ignores_leading_text "prefix " "\x7b\"a\":\"1\",\"b\":\"2\"\x7d"
     [("a", Json.str "1"), ("b", Json.str "2")] (by decide) rfl rfl⟩

/-- C8: a successfully parsed object yields one attribute per field of the
deserialized map, string values verbatim and other values in their
serialized form; and inserting into the map resolves a repeated key to the
later value (last-write-wins), so a duplicated source key keeps its last
occurrence. -/
theorem parse_object_fields :
    (∀ (s : String) (cs : List Char) (entries : List (String × Json)),
        braceSuffix s.toList = some cs →
        parseJsonChars cs = Except.ok (Json.obj entries) →
        parse_function_log s = entries.map (fun kv => (kv.1, attrValue kv.2)))
    ∧ (∀ v : String, attrValue (Json.str v) = v)
    ∧ (∀ v : Json, (∀ w : String, v ≠ Json.str w) → attrValue v = jsonToString v)
    ∧ (∀ (m : List (String × Json)) (k : String) (v : Json),
        lookupKey k (mapInsert k v m) = some v) := by
  refine ⟨?_, fun v => rfl, ?_, ?_⟩
  · intro s cs entries h1 h2
    simp only [parse_function_log, h1, h2]
  · intro v hv
    cases v with
    | str s => exact absurd rfl (hv s)
    | null => rfl
    | bool b => rfl
    | num lexeme => rfl
    | arr items => rfl
    | obj entries => rfl
  · intro m k v
    induction m with
    | nil => simp [mapInsert, lookupKey]
    | cons hd tl ih =>
      obtain ⟨k2, v2⟩ := hd
      by_cases hlt : charsLt k.data k2.data = true
      · simp [mapInsert, hlt, lookupKey]
      · by_cases heq : k = k2
        · subst heq; simp [mapInsert, hlt, lookupKey]
        · simp [mapInsert, hlt, heq, lookupKey, ih]

/-- Closed instance of parse_object_fields: a source object repeating key
a keeps the last occurrence, stringifying its non-string value. -/
theorem parse_object_fields_witness :
    parse_function_log "\x7b\"a\":\"1\",\"a\":2\x7d" = [("a", "2")]
    ∧ lookupKey "a" (mapInsert "a" (Json.num "2") [("a", Json.str "1")])
        = some (Json.num "2") :=
  ⟨parse_object_fields.1 "\x7b\"a\":\"1\",\"a\":2\x7d"
      ("\x7b\"a\":\"1\",\"a\":2\x7d".toList) [("a", Json.num "2")] rfl rfl,
   parse_object_fields.2.2.2 [("a", Json.str "1")] "a" (Json.num "2")⟩

/-- C10: when the text from the first brace onward parses as the empty
JSON object, the parser returns the empty attribute set: no raw_log, no
error, nothing. -/
theorem parse_empty_object (s : String) (cs : List Char)
    (h1 : braceSuffix s.toList = some cs)
    (h2 : parseJsonChars cs = Except.ok (Json.obj [])) :
    parse_function_log s = [] := by
  simp only [parse_function_log, h1, h2, List.map_nil]

/-- Closed instance of parse_empty_object. -/
theorem parse_empty_object_witness :
    parse_function_log "prefix \x7b\x7d" = [] :=
  parse_empty_object "prefix \x7b\x7d" ("\x7b\x7d".toList) rfl rfl

end Microfiber
